import Mathlib

/-!
Verification of the river-monitor signal engine (src/main.py).

The embedding translates the rolling Series Store, the mean/window helpers,
the signal rule engine (`compute_signal_on_series`, `compute_pullback_on_series`,
`compute_realtime_signal`), the collector append path and the startup replay
(`load_history`) into Lean.

Numeric values are modelled as exact rationals.  To keep every concrete
evaluation kernel-reducible they are represented as numerator/denominator
pairs of integers (`PyF`), with all operations plain integer arithmetic;
every value the embedding constructs has a positive denominator, and the
`PyF.toRat` lemmas below prove that on such values the operations and
comparisons agree with the field operations and the order of `ℚ`.

Timestamps of the cooldown clock are integers (`now_ts()` returns
`int(time.time())`).  A Python float division whose denominator may be zero
is modelled with `pydiv`, returning `Except PyErr` (a zero denominator
raises `ZeroDivisionError` in the source); divisions the source explicitly
guards (`mean`, the `if oi_prev else 0` guard at line 184) are total.
List indexing `l[-k]` is modelled by `idxNeg` with default `0`; every use in
the source sits behind a length guard that keeps the index in range.
-/

set_option maxRecDepth 40000

deriving instance DecidableEq for Except

/-- An exact rational: the value `n / d`.  Every value built by the
embedding keeps `0 < d`. -/
structure PyF where
  n : ℤ
  d : ℤ
deriving DecidableEq, Repr

namespace PyF

def ofInt (k : ℤ) : PyF := ⟨k, 1⟩

instance : Add PyF := ⟨fun a b => ⟨a.n * b.d + b.n * a.d, a.d * b.d⟩⟩

instance : Sub PyF := ⟨fun a b => ⟨a.n * b.d - b.n * a.d, a.d * b.d⟩⟩

instance : Neg PyF := ⟨fun a => ⟨-a.n, a.d⟩⟩

instance : Mul PyF := ⟨fun a b => ⟨a.n * b.n, a.d * b.d⟩⟩

/-- Division; the sign of the result is carried by the numerator so that a
positive denominator stays positive.  Only ever applied to a divisor whose
numerator is nonzero (behind `pydiv` or an explicit guard). -/
instance : Div PyF :=
  ⟨fun a b =>
    if b.n < 0 then ⟨-(a.n * b.d), -(a.d * b.n)⟩ else ⟨a.n * b.d, a.d * b.n⟩⟩

def abs (a : PyF) : PyF := ⟨|a.n|, a.d⟩

instance : LE PyF := ⟨fun a b => a.n * b.d ≤ b.n * a.d⟩

instance : LT PyF := ⟨fun a b => a.n * b.d < b.n * a.d⟩

instance (a b : PyF) : Decidable (a ≤ b) :=
  inferInstanceAs (Decidable (a.n * b.d ≤ b.n * a.d))

instance (a b : PyF) : Decidable (a < b) :=
  inferInstanceAs (Decidable (a.n * b.d < b.n * a.d))

/-- Python truthiness / `== 0` of the represented value. -/
def isZero (a : PyF) : Bool := a.n = 0

/-- Positive denominator: the representation invariant of the embedding. -/
def Pos (a : PyF) : Prop := 0 < a.d

/-- The rational value a `PyF` denotes. -/
def toRat (a : PyF) : ℚ := (a.n : ℚ) / (a.d : ℚ)

end PyF

inductive PyErr
  | zeroDivision
deriving DecidableEq, Repr

inductive Exchange
  | binance | bybit | okx | bitget
deriving DecidableEq, Repr

structure Metrics where
  funding : PyF
  price : PyF
  oi : PyF
deriving DecidableEq, Repr

/-- A normalized per-cycle snapshot: exchange name -> metrics, in dict
iteration (= insertion) order. -/
abbrev Snapshot := List (Exchange × Metrics)

inductive Level
  | STRONG_SHORT | PREPARE_SHORT | STRONG_LONG | PREPARE_LONG
  | PULLBACK_SHORT | PULLBACK_LONG
deriving DecidableEq, Repr

/-- A Signal Event as built by the rule engine (dict literal at
src/main.py:214-222 and 257-278). -/
structure Sig where
  ts : Option String
  level : Level
  price : PyF
  funding : PyF
  oi_change : PyF
  vwap : PyF
  index : ℕ
deriving DecidableEq, Repr

/-- `MAX_POINTS = int(3600 / REFRESH_INTERVAL * MAX_HOURS)` with
`REFRESH_INTERVAL = 10`, `MAX_HOURS = 24` (src/main.py:12-14). -/
def MAX_POINTS : ℕ := 8640

structure SignalConfig where
  funding_strong : PyF
  funding_warn : PyF
  oi_drop_pct : PyF
  price_break_pct : PyF
  cooldown_sec : ℤ

/-- src/main.py:16-22: thresholds -0.02, -0.012, -0.06, -0.01, 900 s. -/
def SIGNAL_CONFIG : SignalConfig :=
  { funding_strong := ⟨-2, 100⟩
    funding_warn := ⟨-12, 1000⟩
    oi_drop_pct := ⟨-6, 100⟩
    price_break_pct := ⟨-1, 100⟩
    cooldown_sec := 900 }

/-- Append to a `deque(maxlen := cap)`: push and drop the oldest entries
beyond the capacity. -/
def dappend (cap : ℕ) (l : List α) (x : α) : List α :=
  let l2 := l ++ [x]
  l2.drop (l2.length - cap)

/-- Python's `sum`: a strict left fold starting from 0. -/
def pysum (xs : List PyF) : PyF := xs.foldl (· + ·) (PyF.ofInt 0)

/-- `mean(xs) = sum(xs) / len(xs) if xs else 0` (src/main.py:113-114). -/
def mean (xs : List PyF) : PyF :=
  if xs = [] then PyF.ofInt 0 else pysum xs / PyF.ofInt xs.length

/-- Python float division; raises `ZeroDivisionError` on a zero
denominator. -/
def pydiv (a b : PyF) : Except PyErr PyF :=
  if b.isZero then .error .zeroDivision else .ok (a / b)

/-- `l[-k]` for `k ≥ 1`; every use in the source is behind a length guard
that keeps the index in range, so the default `0` is never observed. -/
def idxNeg (l : List PyF) (k : ℕ) : PyF :=
  l.getD (l.length - k) (PyF.ofInt 0)

/-- `l[-n:]`: the trailing `n` entries (the whole list when `n ≥ len`). -/
def takeRight (l : List PyF) (n : ℕ) : List PyF :=
  l.drop (l.length - n)

/-- `compute_signal_on_series` (src/main.py:165-222).  Takes the avg
series, the `ts` deque, the current `last_signal_ts` and the value
`now_ts()` returns; yields the optional signal together with the (possibly
updated) `last_signal_ts`, or the raised error.  The source divides by
`vwap` twice (price_break and price_rise, lines 192-193) with the same
denominator; one `pydiv` covers both. -/
def compute_signal_on_series (prices fundings ois : List PyF)
    (tss : List (Option String)) (last now : ℤ) :
    Except PyErr (Option Sig × ℤ) :=
  if prices.length < 60 then .ok (none, last) else
  let funding_now := idxNeg fundings 1
  let price_now := idxNeg prices 1
  let oi_now := idxNeg ois 1
  let window : ℕ := 180
  let funding_strong := funding_now ≤ SIGNAL_CONFIG.funding_strong
  let funding_warn := funding_now ≤ SIGNAL_CONFIG.funding_warn
  let funding_long_strong := funding_now ≥ -SIGNAL_CONFIG.funding_strong
  let funding_long_warn := funding_now ≥ -SIGNAL_CONFIG.funding_warn
  if ¬ (ois.length > window) then .ok (none, last) else
  let oi_prev := idxNeg ois window
  let oi_change := if oi_prev.isZero then PyF.ofInt 0
    else (oi_now - oi_prev) / oi_prev
  let oi_break := oi_change ≤ SIGNAL_CONFIG.oi_drop_pct
  let oi_rise := oi_change ≥ -SIGNAL_CONFIG.oi_drop_pct
  let vwap := mean (takeRight prices window)
  match pydiv (price_now - vwap) vwap with
  | .error e => .error e
  | .ok pb =>
    let price_break := pb ≤ SIGNAL_CONFIG.price_break_pct
    let price_rise := pb ≥ -SIGNAL_CONFIG.price_break_pct
    if now - last < SIGNAL_CONFIG.cooldown_sec then .ok (none, last) else
    if funding_strong ∧ oi_break ∧ price_break then
      .ok (some ⟨tss.getD (prices.length - 1) none, .STRONG_SHORT, price_now,
        funding_now, oi_change, vwap, prices.length - 1⟩, now)
    else if funding_warn ∧ oi_break then
      .ok (some ⟨tss.getD (prices.length - 1) none, .PREPARE_SHORT, price_now,
        funding_now, oi_change, vwap, prices.length - 1⟩, now)
    else if funding_long_strong ∧ oi_rise ∧ price_rise then
      .ok (some ⟨tss.getD (prices.length - 1) none, .STRONG_LONG, price_now,
        funding_now, oi_change, vwap, prices.length - 1⟩, now)
    else if funding_long_warn ∧ oi_rise then
      .ok (some ⟨tss.getD (prices.length - 1) none, .PREPARE_LONG, price_now,
        funding_now, oi_change, vwap, prices.length - 1⟩, now)
    else .ok (none, last)

/-- `compute_pullback_on_series` (src/main.py:224-278).  The three
divisions at lines 242, 243 and 246 are unguarded in the source and are
modelled with `pydiv`, in source order (rebound, near_vwap, oi_change). -/
def compute_pullback_on_series (prices fundings ois : List PyF)
    (tss : List (Option String)) (last now : ℤ) :
    Except PyErr (Option Sig × ℤ) :=
  if prices.length < 120 then .ok (none, last) else
  let price_now := idxNeg prices 1
  let funding_now := idxNeg fundings 1
  let oi_now := idxNeg ois 1
  let long_window : ℕ := 180
  let short_window : ℕ := 60
  let vwap_30 := mean (takeRight prices long_window)
  let trend_down := price_now < vwap_30
  let trend_up := price_now > vwap_30
  match pydiv (idxNeg prices 1 - idxNeg prices short_window)
      (idxNeg prices short_window) with
  | .error e => .error e
  | .ok rb =>
  let rebound := rb ≥ (⟨8, 1000⟩ : PyF)
  match pydiv (price_now - vwap_30).abs vwap_30 with
  | .error e => .error e
  | .ok nv =>
  let near_vwap := nv ≤ (⟨3, 1000⟩ : PyF)
  let funding_rebound :=
    idxNeg fundings short_window < funding_now ∧ funding_now < PyF.ofInt 0
  match pydiv (oi_now - idxNeg ois short_window) (idxNeg ois short_window) with
  | .error e => .error e
  | .ok oi_change =>
  let oi_hold := oi_change ≥ (⟨-1, 100⟩ : PyF)
  if now - last < SIGNAL_CONFIG.cooldown_sec then .ok (none, last) else
  if trend_down ∧ rebound ∧ near_vwap ∧ funding_rebound ∧ oi_hold then
    .ok (some ⟨tss.getD (prices.length - 1) none, .PULLBACK_SHORT, price_now,
      funding_now, oi_change, vwap_30, prices.length - 1⟩, now)
  else if trend_up ∧ rebound ∧ near_vwap ∧ funding_rebound ∧ oi_hold then
    .ok (some ⟨tss.getD (prices.length - 1) none, .PULLBACK_LONG, price_now,
      funding_now, oi_change, vwap_30, prices.length - 1⟩, now)
  else .ok (none, last)

/-- `compute_realtime_signal` (src/main.py:280-283): `sig1` first (its
mutation of `last_signal_ts` is visible to the pullback evaluation), then
`sig2`, result `sig2 or sig1`.  The second component is the final
`last_signal_ts`, meaningful even when an exception escapes. -/
def compute_realtime_signal (prices fundings ois : List PyF)
    (tss : List (Option String)) (last now : ℤ) :
    Except PyErr (Option Sig) × ℤ :=
  match compute_signal_on_series prices fundings ois tss last now with
  | .error e => (.error e, last)
  | .ok (sig1, last1) =>
    match compute_pullback_on_series prices fundings ois tss last1 now with
    | .error e => (.error e, last1)
    | .ok (sig2, last2) => (.ok (sig2 <|> sig1), last2)

/-- A `{ex: deque for ex in EXCHANGE_FUNCS}` dict: one bounded sequence per
known exchange (the key set is fixed, src/main.py:156-161). -/
structure ExMap where
  binance : List PyF
  bybit : List PyF
  okx : List PyF
  bitget : List PyF
deriving DecidableEq, Repr

def ExMap.empty : ExMap := ⟨[], [], [], []⟩

/-- `state[...][ex].append(v)` on a per-exchange deque. -/
def ExMap.push (m : ExMap) (ex : Exchange) (v : PyF) : ExMap :=
  match ex with
  | .binance => { m with binance := dappend MAX_POINTS m.binance v }
  | .bybit => { m with bybit := dappend MAX_POINTS m.bybit v }
  | .okx => { m with okx := dappend MAX_POINTS m.okx v }
  | .bitget => { m with bitget := dappend MAX_POINTS m.bitget v }

/-- The per-symbol Series Store: avg sequences, per-exchange sequences and
the timestamp deque (src/main.py:45-56, minus signals/cooldown). -/
structure Store where
  price_avg : List PyF
  funding_avg : List PyF
  oi_avg : List PyF
  price_ex : ExMap
  funding_ex : ExMap
  oi_ex : ExMap
  ts : List (Option String)
deriving DecidableEq, Repr

def Store.empty : Store :=
  ⟨[], [], [], ExMap.empty, ExMap.empty, ExMap.empty, []⟩

/-- The shared append block of `load_history` (src/main.py:72-86) and
`collector` (src/main.py:302-315): per-exchange pushes for the exchanges
present, then the cross-exchange means and the timestamp. -/
def Store.append (st : Store) (snap : Snapshot) (tsv : Option String) :
    Store :=
  let prices := snap.map (fun p => p.2.price)
  let fundings := snap.map (fun p => p.2.funding)
  let ois := snap.map (fun p => p.2.oi)
  { price_avg := dappend MAX_POINTS st.price_avg (mean prices)
    funding_avg := dappend MAX_POINTS st.funding_avg (mean fundings)
    oi_avg := dappend MAX_POINTS st.oi_avg (mean ois)
    price_ex := snap.foldl (fun m p => m.push p.1 p.2.price) st.price_ex
    funding_ex := snap.foldl (fun m p => m.push p.1 p.2.funding) st.funding_ex
    oi_ex := snap.foldl (fun m p => m.push p.1 p.2.oi) st.oi_ex
    ts := dappend MAX_POINTS st.ts tsv }

/-- Full per-symbol state: store, bounded signal log, cooldown clock. -/
structure SymState where
  store : Store
  signals : List Sig
  last_signal_ts : ℤ
deriving DecidableEq, Repr

def SymState.empty : SymState := ⟨Store.empty, [], 0⟩

/-- One line of the persisted jsonl log: either a record
`{ts, symbol, data}` or a line `json.loads` rejects. -/
inductive PLine
  | badJson
  | row (ts : Option String) (data : Snapshot)

def PLine.isBad : PLine → Bool
  | .badJson => true
  | .row _ _ => false

def PLine.toRow : PLine → Option (Option String × Snapshot)
  | .badJson => none
  | .row t d => some (t, d)

/-- One iteration of the replay loop of `load_history` (src/main.py:69-91):
append the row, recompute the signal through `compute_signal_on_series`,
log it; an exception escaping the signal computation aborts the whole load
(there is no handler around the loop). -/
def mkReplaySt (st : SymState) (store1 : Store) (p : Option Sig × ℤ) :
    SymState :=
  ⟨store1,
    (match p.1 with
      | some s => dappend 500 st.signals s
      | none => st.signals), p.2⟩

def replayStep (st : SymState) (r : Option String × Snapshot) (now : ℤ) :
    Except PyErr SymState :=
  let store1 := st.store.append r.2 r.1
  (compute_signal_on_series store1.price_avg store1.funding_avg
    store1.oi_avg store1.ts st.last_signal_ts now).map
    (mkReplaySt st store1)

/-- The replay loop of `load_history`; `nows` gives the value `now_ts()`
returns at the `i`-th iteration. -/
def replayRows (st : SymState) (rows : List (Option String × Snapshot))
    (nows : ℕ → ℤ) (i : ℕ) : Except PyErr SymState :=
  match rows with
  | [] => .ok st
  | r :: rest =>
    (replayStep st r (nows i)).bind (fun st1 => replayRows st1 rest nows (i + 1))

/-- `load_history` (src/main.py:43-92): parsing the whole file happens
under one `try`; a single line `json.loads` rejects makes the list
comprehension raise and the handler return the fresh empty state,
discarding every record. -/
def load_history (lines : List PLine) (nows : ℕ → ℤ) :
    Except PyErr SymState :=
  if lines.any PLine.isBad then .ok SymState.empty
  else replayRows SymState.empty (lines.filterMap PLine.toRow) nows 0

/-- One poll-cycle body of `collector` (src/main.py:291-327) given the
already-assembled snapshot: skip empty snapshots entirely; otherwise
append, persist the record, evaluate `compute_realtime_signal` and log an
emitted signal.  The outer `try` swallows an exception after the append,
keeping the partially-updated state.  Returns (new state, persisted
record, emitted signal). -/
def collectorStep (st : SymState) (snap : Snapshot) (tsv : String)
    (now : ℤ) : SymState × Option (String × Snapshot) × Option Sig :=
  if snap = [] then (st, none, none)
  else
    let store1 := st.store.append snap (some tsv)
    let res := compute_realtime_signal store1.price_avg store1.funding_avg
        store1.oi_avg store1.ts st.last_signal_ts now
    let sig : Option Sig := match res.1 with
      | .error _ => none
      | .ok s => s
    let sigs := match sig with
      | some s => dappend 500 st.signals s
      | none => st.signals
    (⟨store1, sigs, res.2⟩, some (tsv, snap), sig)

/-- Iterated live collector cycles over a list of (timestamp, snapshot)
readings; `nows` gives the cooldown clock of the `i`-th cycle. -/
def collectorRun (st : SymState) (records : List (String × Snapshot))
    (nows : ℕ → ℤ) (i : ℕ) : SymState :=
  match records with
  | [] => st
  | (tsv, snap) :: rest =>
    collectorRun (collectorStep st snap tsv (nows i)).1 rest nows (i + 1)

/-- `Except.ok`-projection used to state concrete results without needing
decidable equality of full states. -/
def exOk : Except PyErr SymState → Option SymState
  | .ok st => some st
  | .error _ => none

/-- The level of the signal inside a `compute_*_on_series` result, if any. -/
def levelOf (r : Except PyErr (Option Sig × ℤ)) : Option Level :=
  match r with
  | .ok (some s, _) => some s.level
  | _ => none

/-- The level of the signal inside a `compute_realtime_signal` result. -/
def levelOfR (r : Except PyErr (Option Sig) × ℤ) : Option Level :=
  match r.1 with
  | .ok (some s) => some s.level
  | _ => none

/-- `true` iff an evaluation cycle actually emitted a signal (an escaped
exception loses the cycle's signal in `collector`). -/
def emitted (r : Except PyErr (Option Sig) × ℤ) : Bool :=
  match r.1 with
  | .ok (some _) => true
  | _ => false

/-! Scenario A fixtures (spec §8).  The spec's fixture: constant
`price_avg = 100` with a dip to 98 at the final point,
`funding_avg = -0.025`, `oi_avg` dropping from 1000 to 900.  `scA61_*` is
the literal 70-point scenario truncated at the 61st point's evaluation
(61 points in the store); `scA_*` is the same shape extended to 181
points, the least history at which the 30-minute OI lookback
(`len(ois) > 180`) lets evaluation proceed. -/

def scA61_prices : List PyF :=
  (List.range 61).map (fun i => if i = 60 then ⟨98, 1⟩ else ⟨100, 1⟩)

def scA61_fundings : List PyF := List.replicate 61 ⟨-25, 1000⟩

def scA61_ois : List PyF :=
  (List.range 61).map (fun i => if i = 60 then ⟨900, 1⟩ else ⟨1000, 1⟩)

def scA61_ts : List (Option String) := List.replicate 61 (some "t")

def scA_prices : List PyF :=
  (List.range 181).map (fun i => if i = 180 then ⟨98, 1⟩ else ⟨100, 1⟩)

def scA_fundings : List PyF := List.replicate 181 ⟨-25, 1000⟩

def scA_ois : List PyF :=
  (List.range 181).map (fun i => if i ≤ 100 then ⟨1000, 1⟩ else ⟨900, 1⟩)

def scA_ts : List (Option String) := List.replicate 181 (some "t")

/-! C2 fixture: a 181-point state on which, evaluated in isolation with a
clear cooldown, both the PREPARE_SHORT rule of `compute_signal_on_series`
and the PULLBACK_SHORT rule of `compute_pullback_on_series` fire:
funding -0.02 rebounding to -0.015 at the last point (warn threshold met,
still negative, above its value 10 min ago), OI 1000 dropping to 900 from
index 121 on (-10% over 30 min, flat over 10 min), price 100 with a dip to
99 at index 121 = -60 and 99.9 now (rebound +0.91%, below but within 0.3%
of the 30-min VWAP =~ 99.994). -/

def c2_prices : List PyF :=
  (List.range 181).map (fun i =>
    if i = 121 then ⟨99, 1⟩ else if i = 180 then ⟨999, 10⟩ else ⟨100, 1⟩)

def c2_fundings : List PyF :=
  (List.range 181).map (fun i => if i = 180 then ⟨-15, 1000⟩ else ⟨-2, 100⟩)

def c2_ois : List PyF :=
  (List.range 181).map (fun i => if i ≤ 120 then ⟨1000, 1⟩ else ⟨900, 1⟩)

def c2_ts : List (Option String) := List.replicate 181 (some "t")

/-! C9 fixture: a 120-point state emitting PULLBACK_LONG: price 100 with
a dip to 99 at index 60 = -60 and 100.1 now (rebound +1.1%, above but
within 0.3% of the 30-min VWAP =~ 99.993), funding -0.01 rebounding to
-0.005 at the last point, OI flat at 1000. -/

def c9_prices : List PyF :=
  (List.range 120).map (fun i =>
    if i = 60 then ⟨99, 1⟩ else if i = 119 then ⟨1001, 10⟩ else ⟨100, 1⟩)

def c9_fundings : List PyF :=
  (List.range 120).map (fun i => if i = 119 then ⟨-5, 1000⟩ else ⟨-1, 100⟩)

def c9_ois : List PyF := List.replicate 120 ⟨1000, 1⟩

def c9_ts : List (Option String) := List.replicate 120 (some "t")

/-! C1 fixture: a 120-record persisted log whose live replay emits
PULLBACK_SHORT at the last record while `load_history` (which only runs
`compute_signal_on_series`) emits nothing.  One exchange per record;
price 100 with 99 at index 60 and 99.9 at index 119, funding -0.01
rebounding to -0.005 at the last record, OI flat at 1000 (so no
strong/prepare rule can fire either way). -/

def pbPrice (i : ℕ) : PyF :=
  if i = 60 then ⟨99, 1⟩ else if i = 119 then ⟨999, 10⟩ else ⟨100, 1⟩

def pbFunding (i : ℕ) : PyF := if i = 119 then ⟨-5, 1000⟩ else ⟨-1, 100⟩

def pbRecord (i : ℕ) : String × Snapshot :=
  ("t", [(Exchange.binance, ⟨pbFunding i, pbPrice i, ⟨1000, 1⟩⟩)])

def pbRecords1 : List (String × Snapshot) := (List.range 60).map pbRecord

def pbRecords2 : List (String × Snapshot) := (List.range' 60 60).map pbRecord

/-- The 120-record log, as the two 60-record halves. -/
def pbRecords : List (String × Snapshot) := pbRecords1 ++ pbRecords2

def pbLine (i : ℕ) : PLine := PLine.row (some "t") (pbRecord i).2

def pbLines1 : List PLine := (List.range 60).map pbLine

def pbLines2 : List PLine := (List.range' 60 60).map pbLine

def pbLines : List PLine := pbLines1 ++ pbLines2

def pbRow (i : ℕ) : Option String × Snapshot := (some "t", (pbRecord i).2)

def pbRows1 : List (Option String × Snapshot) := (List.range 60).map pbRow

def pbRows2 : List (Option String × Snapshot) := (List.range' 60 60).map pbRow

/-- The state either path reaches after the first 60 (uniform) records:
sixty appended points, no signal, cooldown clock untouched. -/
def pbMid : SymState :=
  ⟨⟨List.replicate 60 ⟨100, 1⟩, List.replicate 60 ⟨-1, 100⟩,
    List.replicate 60 ⟨1000, 1⟩,
    ⟨List.replicate 60 ⟨100, 1⟩, [], [], []⟩,
    ⟨List.replicate 60 ⟨-1, 100⟩, [], [], []⟩,
    ⟨List.replicate 60 ⟨1000, 1⟩, [], [], []⟩,
    List.replicate 60 (some "t")⟩, [], 0⟩

/-! C3 fixture: an all-zero price series of 181 points reaches the
unguarded `price_break` division with `vwap = 0` and raises. -/

def zeros181 : List PyF := List.replicate 181 ⟨0, 1⟩

def kilo181 : List PyF := List.replicate 181 ⟨1000, 1⟩

def hundred181 : List PyF := List.replicate 181 ⟨100, 1⟩

def coolf181 : List PyF := List.replicate 181 ⟨-1, 1000⟩

/- C10/C3 witness state: constant benign values, both evaluations return
`.ok` with no signal. -/

def oneSnap : Snapshot := [(Exchange.binance, ⟨⟨-1, 100⟩, ⟨100, 1⟩, ⟨1000, 1⟩⟩)]

def c8_goodSnap : Snapshot :=
  [(Exchange.binance, ⟨⟨-1, 100⟩, ⟨100, 1⟩, ⟨1000, 1⟩⟩)]

def c8_lines : List PLine := [PLine.row (some "t") c8_goodSnap, PLine.badJson]

def pbRowsA : List (Option String × Snapshot) := (List.range 30).map pbRow

def pbRowsB : List (Option String × Snapshot) := (List.range' 30 30).map pbRow

/-- The replay state after the first 30 (uniform) records. -/
def pbMid30 : SymState :=
  ⟨⟨List.replicate 30 ⟨100, 1⟩, List.replicate 30 ⟨-1, 100⟩,
    List.replicate 30 ⟨1000, 1⟩,
    ⟨List.replicate 30 ⟨100, 1⟩, [], [], []⟩,
    ⟨List.replicate 30 ⟨-1, 100⟩, [], [], []⟩,
    ⟨List.replicate 30 ⟨1000, 1⟩, [], [], []⟩,
    List.replicate 30 (some "t")⟩, [], 0⟩

namespace PyF

theorem add_def (a b : PyF) :
    a + b = ⟨a.n * b.d + b.n * a.d, a.d * b.d⟩ := rfl

theorem sub_def (a b : PyF) :
    a - b = ⟨a.n * b.d - b.n * a.d, a.d * b.d⟩ := rfl

theorem neg_def (a : PyF) : -a = ⟨-a.n, a.d⟩ := rfl

theorem mul_def (a b : PyF) : a * b = ⟨a.n * b.n, a.d * b.d⟩ := rfl

theorem div_def (a b : PyF) :
    a / b = if b.n < 0 then (⟨-(a.n * b.d), -(a.d * b.n)⟩ : PyF)
      else ⟨a.n * b.d, a.d * b.n⟩ := rfl

theorem le_def (a b : PyF) : a ≤ b ↔ a.n * b.d ≤ b.n * a.d := Iff.rfl

theorem lt_def (a b : PyF) : a < b ↔ a.n * b.d < b.n * a.d := Iff.rfl

theorem Pos.add {a b : PyF} (ha : a.Pos) (hb : b.Pos) : (a + b).Pos :=
  mul_pos ha hb

theorem Pos.sub {a b : PyF} (ha : a.Pos) (hb : b.Pos) : (a - b).Pos :=
  mul_pos ha hb

theorem Pos.neg {a : PyF} (ha : a.Pos) : (-a).Pos := ha

theorem Pos.mul {a b : PyF} (ha : a.Pos) (hb : b.Pos) : (a * b).Pos :=
  mul_pos ha hb

theorem Pos.abs {a : PyF} (ha : a.Pos) : a.abs.Pos := ha

theorem Pos.div {a b : PyF} (ha : a.Pos) (hb : b.Pos) (hn : b.n ≠ 0) :
    (a / b).Pos := by
  have had : (0 : ℤ) < a.d := ha
  rw [div_def]
  rcases lt_or_gt_of_ne hn with h | h
  · rw [if_pos h]
    show (0 : ℤ) < -(a.d * b.n)
    have : a.d * b.n < 0 := mul_neg_of_pos_of_neg had h
    omega
  · rw [if_neg (by omega : ¬ b.n < 0)]
    show (0 : ℤ) < a.d * b.n
    exact mul_pos had h

theorem toRat_ofInt (k : ℤ) : (ofInt k).toRat = (k : ℚ) := by
  simp [ofInt, toRat]

theorem toRat_add {a b : PyF} (ha : a.Pos) (hb : b.Pos) :
    (a + b).toRat = a.toRat + b.toRat := by
  have had : (0 : ℤ) < a.d := ha
  have hbd : (0 : ℤ) < b.d := hb
  have ha' : (a.d : ℚ) ≠ 0 := Int.cast_ne_zero.mpr (by omega)
  have hb' : (b.d : ℚ) ≠ 0 := Int.cast_ne_zero.mpr (by omega)
  rw [add_def, toRat, toRat, toRat]
  push_cast
  field_simp

theorem toRat_sub {a b : PyF} (ha : a.Pos) (hb : b.Pos) :
    (a - b).toRat = a.toRat - b.toRat := by
  have had : (0 : ℤ) < a.d := ha
  have hbd : (0 : ℤ) < b.d := hb
  have ha' : (a.d : ℚ) ≠ 0 := Int.cast_ne_zero.mpr (by omega)
  have hb' : (b.d : ℚ) ≠ 0 := Int.cast_ne_zero.mpr (by omega)
  rw [sub_def, toRat, toRat, toRat]
  push_cast
  field_simp
  ring

theorem toRat_neg (a : PyF) : (-a).toRat = -a.toRat := by
  rw [neg_def, toRat, toRat]
  push_cast
  ring

theorem toRat_mul {a b : PyF} (ha : a.Pos) (hb : b.Pos) :
    (a * b).toRat = a.toRat * b.toRat := by
  rw [mul_def, toRat, toRat, toRat]
  push_cast
  rw [div_mul_div_comm]

theorem toRat_abs {a : PyF} (ha : a.Pos) : a.abs.toRat = |a.toRat| := by
  have ha' : (0 : ℚ) < (a.d : ℚ) := by exact_mod_cast ha
  show ((|a.n| : ℤ) : ℚ) / (a.d : ℚ) = |(a.n : ℚ) / (a.d : ℚ)|
  rw [abs_div, abs_of_pos ha', Int.cast_abs]

theorem toRat_div {a b : PyF} (ha : a.Pos) (hb : b.Pos) (hn : b.n ≠ 0) :
    (a / b).toRat = a.toRat / b.toRat := by
  have had : (0 : ℤ) < a.d := ha
  have hbd : (0 : ℤ) < b.d := hb
  have ha' : (a.d : ℚ) ≠ 0 := Int.cast_ne_zero.mpr (by omega)
  have hb' : (b.d : ℚ) ≠ 0 := Int.cast_ne_zero.mpr (by omega)
  have hbn : (b.n : ℚ) ≠ 0 := Int.cast_ne_zero.mpr hn
  have key : ((a.n * b.d : ℤ) : ℚ) / ((a.d * b.n : ℤ) : ℚ)
      = a.toRat / b.toRat := by
    rw [toRat, toRat]
    push_cast
    field_simp
  rw [div_def]
  split
  · rw [toRat]
    show ((-(a.n * b.d) : ℤ) : ℚ) / ((-(a.d * b.n) : ℤ) : ℚ) = _
    push_cast
    rw [neg_div_neg_eq]
    push_cast at key
    exact key
  · exact key

theorem le_iff {a b : PyF} (ha : a.Pos) (hb : b.Pos) :
    a ≤ b ↔ a.toRat ≤ b.toRat := by
  have ha' : (0 : ℚ) < (a.d : ℚ) := by exact_mod_cast ha
  have hb' : (0 : ℚ) < (b.d : ℚ) := by exact_mod_cast hb
  rw [le_def, toRat, toRat, div_le_div_iff ha' hb']
  constructor
  · intro h; exact_mod_cast h
  · intro h; exact_mod_cast h

theorem lt_iff {a b : PyF} (ha : a.Pos) (hb : b.Pos) :
    a < b ↔ a.toRat < b.toRat := by
  have ha' : (0 : ℚ) < (a.d : ℚ) := by exact_mod_cast ha
  have hb' : (0 : ℚ) < (b.d : ℚ) := by exact_mod_cast hb
  rw [lt_def, toRat, toRat, div_lt_div_iff ha' hb']
  constructor
  · intro h; exact_mod_cast h
  · intro h; exact_mod_cast h

theorem isZero_iff {a : PyF} (ha : a.Pos) : a.isZero = true ↔ a.toRat = 0 := by
  have had : (0 : ℤ) < a.d := ha
  have ha' : (a.d : ℚ) ≠ 0 := Int.cast_ne_zero.mpr (by omega)
  simp [isZero, toRat, div_eq_zero_iff, ha']

end PyF

theorem collectorRun_cons (st : SymState) (tsv : String) (snap : Snapshot)
    (rest : List (String × Snapshot)) (nows : ℕ → ℤ) (i : ℕ) :
    collectorRun st ((tsv, snap) :: rest) nows i
      = collectorRun (collectorStep st snap tsv (nows i)).1 rest nows (i + 1) :=
  rfl

theorem collectorRun_append (a b : List (String × Snapshot)) (st : SymState)
    (nows : ℕ → ℤ) (i : ℕ) :
    collectorRun st (a ++ b) nows i
      = collectorRun (collectorRun st a nows i) b nows (i + a.length) := by
  induction a generalizing st i with
  | nil => rfl
  | cons r rest ih =>
    obtain ⟨tsv, snap⟩ := r
    rw [List.cons_append, collectorRun_cons, collectorRun_cons, ih]
    congr 1
    simp only [List.length_cons]
    omega

theorem replayRows_cons (st : SymState) (r : Option String × Snapshot)
    (rest : List (Option String × Snapshot)) (nows : ℕ → ℤ) (i : ℕ) :
    replayRows st (r :: rest) nows i
      = (replayStep st r (nows i)).bind
          (fun st1 => replayRows st1 rest nows (i + 1)) :=
  rfl

theorem replayRows_append (a b : List (Option String × Snapshot))
    (st : SymState) (nows : ℕ → ℤ) (i : ℕ) :
    replayRows st (a ++ b) nows i
      = (replayRows st a nows i).bind
          (fun st2 => replayRows st2 b nows (i + a.length)) := by
  induction a generalizing st i with
  | nil => rfl
  | cons r rest ih =>
    rw [List.cons_append, replayRows_cons, replayRows_cons]
    generalize replayStep st r (nows i) = res
    cases res with
    | error e => rfl
    | ok st1 =>
      show replayRows st1 (rest ++ b) nows (i + 1) = _
      rw [ih]
      congr 1
      funext st2
      congr 1
      simp only [List.length_cons]
      omega

theorem signal_ok_spec (prices fundings ois : List PyF)
    (tss : List (Option String)) (last now : ℤ) (od : Option Sig) (l2 : ℤ)
    (h : compute_signal_on_series prices fundings ois tss last now
      = .ok (od, l2)) :
    (od = none ∧ l2 = last)
      ∨ (od.isSome ∧ l2 = now ∧ SIGNAL_CONFIG.cooldown_sec ≤ now - last) := by
  simp only [compute_signal_on_series] at h
  repeat' split at h
  all_goals simp only [Except.ok.injEq, Prod.mk.injEq, reduceCtorEq] at h
  all_goals try (obtain ⟨h1, h2⟩ := h)
  all_goals try (exact Or.inl ⟨h1.symm, h2.symm⟩)
  all_goals subst h1 h2
  all_goals refine Or.inr ⟨rfl, rfl, ?_⟩
  all_goals omega

theorem pullback_ok_spec (prices fundings ois : List PyF)
    (tss : List (Option String)) (last now : ℤ) (od : Option Sig) (l2 : ℤ)
    (h : compute_pullback_on_series prices fundings ois tss last now
      = .ok (od, l2)) :
    (od = none ∧ l2 = last)
      ∨ (od.isSome ∧ l2 = now ∧ SIGNAL_CONFIG.cooldown_sec ≤ now - last) := by
  simp only [compute_pullback_on_series] at h
  repeat' split at h
  all_goals simp only [Except.ok.injEq, Prod.mk.injEq, reduceCtorEq] at h
  all_goals try (obtain ⟨h1, h2⟩ := h)
  all_goals try (exact Or.inl ⟨h1.symm, h2.symm⟩)
  all_goals subst h1 h2
  all_goals refine Or.inr ⟨rfl, rfl, ?_⟩
  all_goals omega

theorem signal_cooldown (prices fundings ois : List PyF)
    (tss : List (Option String)) (last now : ℤ)
    (hlt : now - last < SIGNAL_CONFIG.cooldown_sec) (r : Option Sig × ℤ)
    (h : compute_signal_on_series prices fundings ois tss last now = .ok r) :
    r = (none, last) := by
  obtain ⟨od, l2⟩ := r
  rcases signal_ok_spec prices fundings ois tss last now od l2 h with
    ⟨h1, h2⟩ | ⟨h1, h2, h3⟩
  · rw [h1, h2]
  · omega

theorem pullback_cooldown (prices fundings ois : List PyF)
    (tss : List (Option String)) (last now : ℤ)
    (hlt : now - last < SIGNAL_CONFIG.cooldown_sec) (r : Option Sig × ℤ)
    (h : compute_pullback_on_series prices fundings ois tss last now = .ok r) :
    r = (none, last) := by
  obtain ⟨od, l2⟩ := r
  rcases pullback_ok_spec prices fundings ois tss last now od l2 h with
    ⟨h1, h2⟩ | ⟨h1, h2, h3⟩
  · rw [h1, h2]
  · omega

theorem realtime_def (prices fundings ois : List PyF)
    (tss : List (Option String)) (last now : ℤ) :
    compute_realtime_signal prices fundings ois tss last now
      = match compute_signal_on_series prices fundings ois tss last now with
        | .error e => (.error e, last)
        | .ok (sig1, last1) =>
          match compute_pullback_on_series prices fundings ois tss last1 now with
          | .error e => (.error e, last1)
          | .ok (sig2, last2) => (.ok (sig2 <|> sig1), last2) := rfl

theorem realtime_emitted_last (prices fundings ois : List PyF)
    (tss : List (Option String)) (last now : ℤ)
    (h : emitted (compute_realtime_signal prices fundings ois tss last now)
      = true) :
    (compute_realtime_signal prices fundings ois tss last now).2 = now := by
  rw [realtime_def] at h ⊢
  cases h1 : compute_signal_on_series prices fundings ois tss last now with
  | error e => exact Bool.noConfusion (by simpa only [h1, emitted] using h)
  | ok p =>
    obtain ⟨sig1, last1⟩ := p
    simp only [h1] at h ⊢
    cases h2 : compute_pullback_on_series prices fundings ois tss last1 now with
    | error e => exact Bool.noConfusion (by simpa only [h2, emitted] using h)
    | ok q =>
      obtain ⟨sig2, last2⟩ := q
      simp only [h2] at h ⊢
      show last2 = now
      cases hs2 : sig2 with
      | some s =>
        rcases pullback_ok_spec prices fundings ois tss last1 now sig2 last2 h2
          with ⟨hn, _⟩ | ⟨_, hl, _⟩
        · rw [hs2] at hn; cases hn
        · exact hl
      | none =>
        rw [hs2] at h
        cases hs1 : sig1 with
        | none => rw [hs1] at h; simp [emitted] at h
        | some s =>
          rcases pullback_ok_spec prices fundings ois tss last1 now sig2 last2 h2
            with ⟨_, hl2⟩ | ⟨hs, _, _⟩
          · rcases signal_ok_spec prices fundings ois tss last now sig1 last1 h1
              with ⟨hn1, _⟩ | ⟨_, hl1, _⟩
            · rw [hs1] at hn1; cases hn1
            · rw [hl2, hl1]
          · rw [hs2] at hs; simp at hs

theorem realtime_cooldown (prices fundings ois : List PyF)
    (tss : List (Option String)) (last now : ℤ)
    (hlt : now - last < SIGNAL_CONFIG.cooldown_sec) :
    emitted (compute_realtime_signal prices fundings ois tss last now)
      = false := by
  rw [realtime_def]
  cases h1 : compute_signal_on_series prices fundings ois tss last now with
  | error e => simp [emitted]
  | ok p =>
    obtain ⟨sig1, last1⟩ := p
    have hr := signal_cooldown prices fundings ois tss last now hlt _ h1
    rw [Prod.mk.injEq] at hr
    obtain ⟨e1, e2⟩ := hr
    simp only [e1, e2]
    cases h2 : compute_pullback_on_series prices fundings ois tss last now with
    | error e => simp [emitted]
    | ok q =>
      obtain ⟨sig2, last2⟩ := q
      have hr2 := pullback_cooldown prices fundings ois tss last now hlt _ h2
      rw [Prod.mk.injEq] at hr2
      obtain ⟨f1, f2⟩ := hr2
      simp only [f1, f2]
      simp [emitted, Option.orElse]

theorem length_dappend (cap : ℕ) (l : List α) (x : α) :
    (dappend cap l x).length = min (l.length + 1) cap := by
  simp only [dappend, List.length_drop, List.length_append, List.length_cons,
    List.length_nil]
  omega

theorem dappend_at_cap (cap : ℕ) (l : List α) (x : α) (h : l.length = cap)
    (hpos : 0 < cap) : dappend cap l x = l.tail ++ [x] := by
  simp only [dappend]
  have h1 : (l ++ [x]).length - cap = 1 := by
    simp only [List.length_append, List.length_cons, List.length_nil]
    omega
  rw [h1, List.drop_append_of_le_length (by omega : 1 ≤ l.length),
    List.drop_one]

/-- C2: on a state where both the PREPARE_SHORT rule and the PULLBACK_SHORT
rule fire in isolation, `compute_realtime_signal` emits PREPARE_SHORT:
`compute_signal_on_series` runs first and sets `last_signal_ts = now`, so
the pullback evaluation in the same cycle is cooldown-blocked and
`sig2 or sig1` falls back to `sig1` — the pullback never takes precedence,
although the `sig2 or sig1` ordering shows that it was meant to. -/
theorem c2_precedence_bug :
    levelOf (compute_signal_on_series c2_prices c2_fundings c2_ois c2_ts
        0 1000000) = some Level.PREPARE_SHORT
    ∧ levelOf (compute_pullback_on_series c2_prices c2_fundings c2_ois c2_ts
        0 1000000) = some Level.PULLBACK_SHORT
    ∧ levelOfR (compute_realtime_signal c2_prices c2_fundings c2_ois c2_ts
        0 1000000) = some Level.PREPARE_SHORT := by
  refine ⟨by decide, by decide, by decide⟩

/-- C4: two consecutive evaluation cycles whose `now` timestamps are less
than `cooldown_sec` apart emit at most one signal: if the first cycle
emitted, the second (with the first's updated `last_signal_ts`, on any
series data) emits nothing — within the cooldown every rule path returns
"no signal" regardless of rule matches. -/
theorem c4_cooldown_at_most_one (p1 f1 o1 : List PyF)
    (t1s : List (Option String)) (p2 f2 o2 : List PyF)
    (t2s : List (Option String)) (last t1 t2 : ℤ)
    (hlt : t2 - t1 < SIGNAL_CONFIG.cooldown_sec)
    (h1 : emitted (compute_realtime_signal p1 f1 o1 t1s last t1) = true) :
    emitted (compute_realtime_signal p2 f2 o2 t2s
      (compute_realtime_signal p1 f1 o1 t1s last t1).2 t2) = false := by
  rw [realtime_emitted_last p1 f1 o1 t1s last t1 h1]
  exact realtime_cooldown p2 f2 o2 t2s t1 t2 hlt

theorem c4_witness :
    emitted (compute_realtime_signal scA_prices scA_fundings scA_ois scA_ts
      (compute_realtime_signal scA_prices scA_fundings scA_ois scA_ts
        0 1000000).2 1000060) = false :=
  c4_cooldown_at_most_one scA_prices scA_fundings scA_ois scA_ts
    scA_prices scA_fundings scA_ois scA_ts 0 1000000 1000060
    (by decide) (by decide)

/-- C5: on a snapshot with at least one exchange, `Store.append` keeps the
three avg sequences and `ts` the same length; below capacity each grows by
exactly 1, and at capacity each drops its oldest entry and appends the new
one in lockstep. -/
theorem c5_append_lockstep (st : Store) (snap : Snapshot)
    (tsv : Option String) (hne : snap ≠ [])
    (h1 : st.price_avg.length = st.ts.length)
    (h2 : st.funding_avg.length = st.ts.length)
    (h3 : st.oi_avg.length = st.ts.length) :
    ((st.append snap tsv).price_avg.length = (st.append snap tsv).ts.length
      ∧ (st.append snap tsv).funding_avg.length
          = (st.append snap tsv).ts.length
      ∧ (st.append snap tsv).oi_avg.length = (st.append snap tsv).ts.length)
    ∧ (st.ts.length < MAX_POINTS →
        (st.append snap tsv).ts.length = st.ts.length + 1)
    ∧ (st.ts.length = MAX_POINTS →
        ((st.append snap tsv).ts.length = MAX_POINTS
          ∧ (st.append snap tsv).price_avg
              = st.price_avg.tail ++ [mean (snap.map (fun p => p.2.price))]
          ∧ (st.append snap tsv).funding_avg
              = st.funding_avg.tail ++ [mean (snap.map (fun p => p.2.funding))]
          ∧ (st.append snap tsv).oi_avg
              = st.oi_avg.tail ++ [mean (snap.map (fun p => p.2.oi))]
          ∧ (st.append snap tsv).ts = st.ts.tail ++ [tsv])) := by
  have hM : MAX_POINTS = 8640 := rfl
  simp only [Store.append]
  refine ⟨⟨?_, ?_, ?_⟩, ?_, ?_⟩
  · rw [length_dappend, length_dappend, h1]
  · rw [length_dappend, length_dappend, h2]
  · rw [length_dappend, length_dappend, h3]
  · intro hlt
    rw [length_dappend]
    omega
  · intro hcap
    refine ⟨?_, ?_, ?_, ?_, ?_⟩
    · rw [length_dappend]
      omega
    · exact dappend_at_cap _ _ _ (h1.trans hcap) (by omega)
    · exact dappend_at_cap _ _ _ (h2.trans hcap) (by omega)
    · exact dappend_at_cap _ _ _ (h3.trans hcap) (by omega)
    · exact dappend_at_cap _ _ _ hcap (by omega)

theorem c5_witness :
    ((Store.empty.append oneSnap (some "t")).price_avg.length
        = (Store.empty.append oneSnap (some "t")).ts.length
      ∧ (Store.empty.append oneSnap (some "t")).funding_avg.length
          = (Store.empty.append oneSnap (some "t")).ts.length
      ∧ (Store.empty.append oneSnap (some "t")).oi_avg.length
          = (Store.empty.append oneSnap (some "t")).ts.length)
    ∧ (Store.empty.ts.length < MAX_POINTS →
        (Store.empty.append oneSnap (some "t")).ts.length
          = Store.empty.ts.length + 1)
    ∧ (Store.empty.ts.length = MAX_POINTS →
        ((Store.empty.append oneSnap (some "t")).ts.length = MAX_POINTS
          ∧ (Store.empty.append oneSnap (some "t")).price_avg
              = Store.empty.price_avg.tail
                  ++ [mean (oneSnap.map (fun p => p.2.price))]
          ∧ (Store.empty.append oneSnap (some "t")).funding_avg
              = Store.empty.funding_avg.tail
                  ++ [mean (oneSnap.map (fun p => p.2.funding))]
          ∧ (Store.empty.append oneSnap (some "t")).oi_avg
              = Store.empty.oi_avg.tail
                  ++ [mean (oneSnap.map (fun p => p.2.oi))]
          ∧ (Store.empty.append oneSnap (some "t")).ts
              = Store.empty.ts.tail ++ [some "t"])) :=
  c5_append_lockstep Store.empty oneSnap (some "t") (by decide) rfl rfl rfl

/-- C6 counterexample: the literal Scenario A fixture stops at the 61st
point; there `compute_signal_on_series` returns no signal (the 30-minute
OI lookback needs more than 180 points and the evaluation aborts), not
STRONG_SHORT as the claim expects. -/
theorem c6_counterexample :
    compute_signal_on_series scA61_prices scA61_fundings scA61_ois scA61_ts
      0 1000000 = .ok (none, 0) := by decide

/-- C6 (amended): on the Scenario A shape extended to 181 points (price
100 constant dipping to 98 at the last point, funding -0.025, OI dropping
1000 -> 900), the engine emits STRONG_SHORT and sets the cooldown clock;
a re-evaluation one cycle later, within the cooldown, emits nothing. -/
theorem c6_amended :
    levelOf (compute_signal_on_series scA_prices scA_fundings scA_ois scA_ts
        0 1000000) = some Level.STRONG_SHORT
    ∧ (compute_signal_on_series (scA_prices ++ [⟨100, 1⟩])
        (scA_fundings ++ [⟨-25, 1000⟩]) (scA_ois ++ [⟨900, 1⟩])
        (scA_ts ++ [some "u"]) 1000000 1000060 = .ok (none, 1000000)) := by
  refine ⟨by decide, by decide⟩

/-- C7: a cycle whose snapshot is empty (every exchange failed) is a
complete no-op: the state (all sequences, signal log, cooldown clock) is
returned unchanged, nothing is persisted and nothing is emitted. -/
theorem c7_empty_snapshot_noop (st : SymState) (tsv : String) (now : ℤ) :
    collectorStep st [] tsv now = (st, none, none) := rfl

/-- C8 counterexample: a log holding one well-formed record followed by one
malformed line replays to the fresh empty state — the well-formed record is
discarded rather than replay continuing with it (the claim expects a store
of length 1). -/
theorem c8_counterexample :
    load_history c8_lines (fun _ => 1000000) = .ok SymState.empty
    ∧ SymState.empty.store.ts.length = 0 := by
  refine ⟨by decide, rfl⟩

/-- C8 (amended): a single malformed line makes `json.loads` of the whole
file raise, and `load_history` answers with the fresh empty state — every
record of the log, well-formed or not, is discarded. -/
theorem c8_amended (lines : List PLine) (nows : ℕ → ℤ)
    (h : lines.any PLine.isBad = true) :
    load_history lines nows = .ok SymState.empty := by
  simp [load_history, h]

theorem c8_amended_witness :
    load_history c8_lines (fun _ => 1000000) = .ok SymState.empty :=
  c8_amended c8_lines (fun _ => 1000000) (by decide)

/-- C9: a PULLBACK_LONG emission implies the short-side funding_rebound
condition held: the funding rate one short-window (10 min) ago was below
the current rate and the current rate is still strictly negative — the
long branch reuses `funding_rebound` unchanged, with no sign-mirrored
long-side condition. -/
theorem c9_pullback_long_funding_reuse (prices fundings ois : List PyF)
    (tss : List (Option String)) (last now : ℤ)
    (h : levelOf (compute_pullback_on_series prices fundings ois tss last now)
      = some Level.PULLBACK_LONG) :
    idxNeg fundings 60 < idxNeg fundings 1
      ∧ idxNeg fundings 1 < PyF.ofInt 0 := by
  unfold levelOf at h
  split at h
  · rename_i s l2 heq
    rw [Option.some.injEq] at h
    simp only [compute_pullback_on_series] at heq
    repeat' split at heq
    all_goals simp only [Except.ok.injEq, Prod.mk.injEq, reduceCtorEq,
      Option.some.injEq] at heq
    all_goals try exact heq.1.elim
    all_goals obtain ⟨h5, h6⟩ := heq
    all_goals rw [← h5] at h
    all_goals simp at h
    all_goals rename_i hcond
    all_goals exact hcond.2.2.2.1
  · exact absurd h (by simp)

/-- C10: the two rule evaluators mutate `last_signal_ts` exactly when they
return a signal: an `.ok` outcome with no signal (insufficient history,
active cooldown, or no rule match) returns the clock unchanged — and the
functions read but never write the series — while an emission sets it to
`now`, a genuine change since the cooldown forces `now ≠ last`. -/
theorem c10_mutation_iff (prices fundings ois : List PyF)
    (tss : List (Option String)) (last now : ℤ) (r1 r2 : Option Sig × ℤ)
    (h1 : compute_signal_on_series prices fundings ois tss last now = .ok r1)
    (h2 : compute_pullback_on_series prices fundings ois tss last now = .ok r2) :
    ((r1.1 = none → r1.2 = last)
      ∧ (r1.1.isSome → r1.2 = now ∧ r1.2 ≠ last))
    ∧ ((r2.1 = none → r2.2 = last)
      ∧ (r2.1.isSome → r2.2 = now ∧ r2.2 ≠ last)) := by
  have hC : SIGNAL_CONFIG.cooldown_sec = 900 := rfl
  obtain ⟨od1, l1⟩ := r1
  obtain ⟨od2, l2⟩ := r2
  constructor
  · rcases signal_ok_spec prices fundings ois tss last now od1 l1 h1 with
      ⟨a1, a2⟩ | ⟨a1, a2, a3⟩
    · subst a1
      subst a2
      exact ⟨fun _ => rfl, fun hs => absurd hs (by simp)⟩
    · subst a2
      refine ⟨fun hn => ?_, fun _ => ⟨rfl, ?_⟩⟩
      · have hn2 : od1 = none := hn
        rw [hn2] at a1
        exact absurd a1 (by simp)
      · show l1 ≠ last
        omega
  · rcases pullback_ok_spec prices fundings ois tss last now od2 l2 h2 with
      ⟨a1, a2⟩ | ⟨a1, a2, a3⟩
    · subst a1
      subst a2
      exact ⟨fun _ => rfl, fun hs => absurd hs (by simp)⟩
    · subst a2
      refine ⟨fun hn => ?_, fun _ => ⟨rfl, ?_⟩⟩
      · have hn2 : od2 = none := hn
        rw [hn2] at a1
        exact absurd a1 (by simp)
      · show l2 ≠ last
        omega

theorem c10_witness :
    ((((none : Option Sig), (0 : ℤ)).1 = none
        → ((none : Option Sig), (0 : ℤ)).2 = 0)
      ∧ (((none : Option Sig), (0 : ℤ)).1.isSome
        → ((none : Option Sig), (0 : ℤ)).2 = 1000000
            ∧ ((none : Option Sig), (0 : ℤ)).2 ≠ 0))
    ∧ ((((none : Option Sig), (0 : ℤ)).1 = none
        → ((none : Option Sig), (0 : ℤ)).2 = 0)
      ∧ (((none : Option Sig), (0 : ℤ)).1.isSome
        → ((none : Option Sig), (0 : ℤ)).2 = 1000000
            ∧ ((none : Option Sig), (0 : ℤ)).2 ≠ 0)) :=
  c10_mutation_iff hundred181 coolf181 kilo181 scA_ts 0 1000000
    (none, 0) (none, 0) (by decide) (by decide)

/-- C3 counterexample: on a series whose prices are all zero (181 points,
nonzero OI), the trailing 30-minute VWAP is 0 and the unguarded
`price_break` division at src/main.py:192 raises ZeroDivisionError — the
evaluation does not degrade to "no change". -/
theorem c3_counterexample :
    compute_signal_on_series zeros181 zeros181 kilo181 scA_ts 0 1000000
      = .error .zeroDivision := by decide

/-- C3 (amended): signal evaluation cannot raise provided the three
unguarded denominators are nonzero — the 30-minute VWAP
(`mean (takeRight prices 180)`, shared by both evaluators),
`prices[-short_window]` and `ois[-short_window]`; the divisions the source
does guard (`mean` over an empty list, `oi_change` with a zero `oi_prev`)
degrade to 0 instead of raising. -/
theorem c3_no_raise (prices fundings ois : List PyF)
    (tss : List (Option String)) (last now : ℤ)
    (hv : (mean (takeRight prices 180)).isZero = false)
    (hp : (idxNeg prices 60).isZero = false)
    (ho : (idxNeg ois 60).isZero = false) :
    (∃ r, compute_signal_on_series prices fundings ois tss last now = .ok r)
    ∧ (∃ r, compute_pullback_on_series prices fundings ois tss last now
        = .ok r) := by
  have hdv : ∀ a, pydiv a (mean (takeRight prices 180))
      = .ok (a / mean (takeRight prices 180)) := by
    intro a; simp [pydiv, hv]
  have hdp : ∀ a, pydiv a (idxNeg prices 60)
      = .ok (a / idxNeg prices 60) := by
    intro a; simp [pydiv, hp]
  have hdo : ∀ a, pydiv a (idxNeg ois 60)
      = .ok (a / idxNeg ois 60) := by
    intro a; simp [pydiv, ho]
  constructor
  · simp only [compute_signal_on_series, hdv]
    repeat' split
    all_goals exact ⟨_, rfl⟩
  · simp only [compute_pullback_on_series, hdv, hdp, hdo]
    repeat' split
    all_goals exact ⟨_, rfl⟩

theorem c3_no_raise_witness :
    (∃ r, compute_signal_on_series hundred181 coolf181 kilo181 scA_ts
      0 1000000 = .ok r)
    ∧ (∃ r, compute_pullback_on_series hundred181 coolf181 kilo181 scA_ts
      0 1000000 = .ok r) :=
  c3_no_raise hundred181 coolf181 kilo181 scA_ts 0 1000000
    (by decide) (by decide) (by decide)

theorem except_cases (x : Except α β) :
    (∃ e, x = .error e) ∨ (∃ b, x = .ok b) := by
  cases x with
  | error e => exact Or.inl ⟨e, rfl⟩
  | ok b => exact Or.inr ⟨b, rfl⟩

theorem except_bind_ok (a : α) (f : α → Except ε β) :
    (Except.ok a : Except ε α).bind f = f a := rfl

theorem replayStep_store (st : SymState) (r : Option String × Snapshot)
    (now : ℤ) (st1 : SymState) (h : replayStep st r now = .ok st1) :
    st1.store = st.store.append r.2 r.1 := by
  have hd : replayStep st r now
      = (compute_signal_on_series (st.store.append r.2 r.1).price_avg
          (st.store.append r.2 r.1).funding_avg
          (st.store.append r.2 r.1).oi_avg (st.store.append r.2 r.1).ts
          st.last_signal_ts now).map
          (mkReplaySt st (st.store.append r.2 r.1)) := rfl
  rw [hd] at h
  rcases except_cases (compute_signal_on_series
      (st.store.append r.2 r.1).price_avg (st.store.append r.2 r.1).funding_avg
      (st.store.append r.2 r.1).oi_avg (st.store.append r.2 r.1).ts
      st.last_signal_ts now) with ⟨e, hs⟩ | ⟨b, hs⟩
  · rw [hs] at h
    exact absurd h (by simp [Except.map])
  · rw [hs] at h
    simp only [Except.map, Except.ok.injEq] at h
    rw [← h]
    rfl

theorem replay_store_fold (rows : List (Option String × Snapshot))
    (st0 : SymState) (nows : ℕ → ℤ) (i : ℕ) (st1 : SymState)
    (h : replayRows st0 rows nows i = .ok st1) :
    st1.store = rows.foldl (fun s r => s.append r.2 r.1) st0.store := by
  induction rows generalizing st0 i with
  | nil =>
    rw [show replayRows st0 [] nows i = .ok st0 from rfl, Except.ok.injEq] at h
    rw [← h]
    rfl
  | cons r rest ih =>
    rw [replayRows_cons] at h
    rcases except_cases (replayStep st0 r (nows i)) with ⟨e, hs⟩ | ⟨stm, hs⟩
    · rw [hs] at h
      exact absurd h (by simp [Except.bind])
    · rw [hs, except_bind_ok] at h
      rw [List.foldl_cons, ← replayStep_store st0 r (nows i) stm hs]
      exact ih stm (i + 1) h

theorem collectorStep_store (st : SymState) (snap : Snapshot) (tsv : String)
    (now : ℤ) (hne : snap ≠ []) :
    (collectorStep st snap tsv now).1.store
      = st.store.append snap (some tsv) := by
  unfold collectorStep
  rw [if_neg hne]

theorem collector_store_fold (records : List (String × Snapshot))
    (st : SymState) (nows : ℕ → ℤ) (i : ℕ)
    (hne : ∀ r ∈ records, r.2 ≠ ([] : Snapshot)) :
    (collectorRun st records nows i).store
      = records.foldl (fun s r => s.append r.2 (some r.1)) st.store := by
  induction records generalizing st i with
  | nil => rfl
  | cons r rest ih =>
    obtain ⟨tsv, snap⟩ := r
    rw [collectorRun_cons, List.foldl_cons,
      ih _ _ (fun x hx => hne x (List.mem_cons_of_mem _ hx)),
      collectorStep_store st snap tsv (nows i)
        (hne (tsv, snap) (List.mem_cons_self _ _))]

theorem c1_replay_eval :
    load_history pbLines (fun _ => 1000000)
      = replayRows pbMid pbRows2 (fun _ => 1000000) 60 := by
  have hcond : ¬ (pbLines.any PLine.isBad = true) := by decide
  have hrows : pbLines.filterMap PLine.toRow = pbRows1 ++ pbRows2 := by decide
  have hsplit : pbRows1 = pbRowsA ++ pbRowsB := by decide
  have hA : replayRows SymState.empty pbRowsA (fun _ => 1000000) 0
      = .ok pbMid30 := by decide
  have hB : replayRows pbMid30 pbRowsB (fun _ => 1000000) 30
      = .ok pbMid := by decide
  have h1 : replayRows SymState.empty pbRows1 (fun _ => 1000000) 0
      = .ok pbMid := by
    rw [hsplit, replayRows_append, hA, except_bind_ok,
      show (0 + pbRowsA.length) = 30 from by decide]
    exact hB
  have hlen : pbRows1.length = 60 := by decide
  unfold load_history
  rw [if_neg hcond, hrows, replayRows_append, h1, except_bind_ok, hlen]

theorem c1_live_eval :
    collectorRun SymState.empty pbRecords (fun _ => 1000000) 0
      = collectorRun pbMid pbRecords2 (fun _ => 1000000) 60 := by
  have h1 : collectorRun SymState.empty pbRecords1 (fun _ => 1000000) 0
      = pbMid := by decide
  have hlen : pbRecords1.length = 60 := by decide
  unfold pbRecords
  rw [collectorRun_append, h1, hlen]

/-- C1 counterexample: on the 120-record pullback log, replay and the live
path agree on the Series Store length (120) but not on the signals: the
live path emits PULLBACK_SHORT at the last record while `load_history`
(which replays through `compute_signal_on_series` only, skipping
`compute_pullback_on_series`) emits nothing. -/
theorem c1_counterexample :
    (exOk (load_history pbLines (fun _ => 1000000))).map
        (fun st => (st.store.ts.length, st.signals.map (fun s => s.level)))
      = some (120, [])
    ∧ (collectorRun SymState.empty pbRecords
        (fun _ => 1000000) 0).store.ts.length = 120
    ∧ (collectorRun SymState.empty pbRecords (fun _ => 1000000) 0).signals.map
        (fun s => s.level) = [Level.PULLBACK_SHORT] := by
  refine ⟨?_, ?_, ?_⟩
  · rw [c1_replay_eval]
    decide
  · rw [c1_live_eval]
    decide
  · rw [c1_live_eval]
    decide

/-- C1 (amended): replaying a persisted log of nonempty-snapshot records
rebuilds exactly the same Series Store (all avg and ts sequences, hence
the same length) as appending the same records through the live collector
path; the emitted signals, however, are not recomputed identically: the
replay loop evaluates only `compute_signal_on_series`, never the pullback
rule, so pullback signals present live are missing after replay (see the
counterexample). -/
theorem rowLines_any_isBad (records : List (String × Snapshot)) :
    (records.map (fun r => PLine.row (some r.1) r.2)).any PLine.isBad
      = false := by
  induction records with
  | nil => rfl
  | cons a t ih => simp [PLine.isBad, ih]

theorem rowLines_filterMap (records : List (String × Snapshot)) :
    (records.map (fun r => PLine.row (some r.1) r.2)).filterMap PLine.toRow
      = records.map (fun r => ((some r.1 : Option String), r.2)) := by
  induction records with
  | nil => rfl
  | cons a t ih => simp [List.filterMap_cons, PLine.toRow, ih]

theorem c1_store_eq (records : List (String × Snapshot)) (nows : ℕ → ℤ)
    (hne : ∀ r ∈ records, r.2 ≠ ([] : Snapshot)) (st : SymState)
    (hok : load_history (records.map (fun r => PLine.row (some r.1) r.2)) nows
      = .ok st) :
    st.store = (collectorRun SymState.empty records nows 0).store := by
  have hbad : ¬ ((records.map (fun r => PLine.row (some r.1) r.2)).any
      PLine.isBad = true) := by
    simp [rowLines_any_isBad]
  unfold load_history at hok
  rw [if_neg hbad, rowLines_filterMap] at hok
  rw [replay_store_fold _ _ _ _ _ hok, List.foldl_map,
    collector_store_fold records SymState.empty nows 0 hne]

theorem c1_store_eq_witness :
    (⟨Store.empty.append oneSnap (some "t"), [], 0⟩ : SymState).store
      = (collectorRun SymState.empty [("t", oneSnap)]
          (fun _ => 1000000) 0).store :=
  c1_store_eq [("t", oneSnap)] (fun _ => 1000000) (by decide)
    ⟨Store.empty.append oneSnap (some "t"), [], 0⟩ (by decide)

theorem c9_witness :
    idxNeg c9_fundings 60 < idxNeg c9_fundings 1
      ∧ idxNeg c9_fundings 1 < PyF.ofInt 0 :=
  c9_pullback_long_funding_reuse c9_prices c9_fundings c9_ois c9_ts 0 1000000
    (by decide)
